import Mathlib

/-!
Verification of `pkg/virtual/framework/internalapis/import.go`
(function `createAPIResourceSchemas` and its data model).

The Go function chains external collaborators
(`DefaultOpenAPIConfig`/`NewDefinitionNamer`,
`builder.BuildOpenAPIDefinitionsForResources`, `openapi.ToProtoModels`,
`endpointsopenapi.GetModelsByGKV`, `crdpuller.Convert`,
`errors.NewAggregate`, `APIResourceVersion.SetSchema`) around a core
pipeline.  The collaborators are out of scope and are modelled as opaque
function parameters collected in `PipelineEnv`; the pipeline's own control
flow — the getter merge, canonical-name collection, the staged fallible
calls, and the per-descriptor assembly loop — is embedded faithfully
below.
-/

namespace InternalAPIs

/-- `schema.GroupVersion` from k8s apimachinery: a group (possibly empty,
meaning the core group) and a version. -/
structure GroupVersion where
  group : String
  version : String
deriving DecidableEq, Repr

/-- `schema.GroupVersionKind`: a (group, version, kind) triple. -/
structure GroupVersionKind where
  group : String
  version : String
  kind : String
deriving DecidableEq, Repr

/-- `GroupVersion.WithKind` from k8s apimachinery. -/
def GroupVersion.withKind (gv : GroupVersion) (kind : String) : GroupVersionKind :=
  { group := gv.group, version := gv.version, kind := kind }

/-- The fields of `apiextensionsv1.CustomResourceDefinitionNames` used by
`import.go` (plural, singular, kind). -/
structure CustomResourceDefinitionNames where
  plural : String
  singular : String
  kind : String
deriving DecidableEq, Repr

/-- `apiextensionsv1.ResourceScope`. -/
inductive ResourceScope where
  | clusterScoped
  | namespaceScoped
deriving DecidableEq, Repr

/-- `apiextensionsv1.CustomResourceSubresourceStatus` is an empty struct:
only its presence (non-nil pointer) matters. -/
def CustomResourceSubresourceStatus : Type := Unit

instance : DecidableEq CustomResourceSubresourceStatus :=
  fun _ _ => Decidable.isTrue rfl

/-- The `Subresources` field of an `APIResourceVersion`: only the `Status`
pointer is ever set by `import.go` (nil in the Go zero value). -/
structure CustomResourceSubresources where
  status : Option CustomResourceSubresourceStatus
deriving DecidableEq

/-- `InternalAPI` (import.go lines 40–46): one type descriptor.  The opaque
`Instance runtime.Object` field is a type parameter `Inst`; the source's
misspelled field name `ResourceSope` is kept. -/
structure InternalAPI (Inst : Type) where
  names : CustomResourceDefinitionNames
  groupVersion : GroupVersion
  inst : Inst
  resourceSope : ResourceScope
  hasStatus : Bool
deriving DecidableEq, Repr

/-- The fields of `metav1.ObjectMeta` set by `import.go` (only `Name`). -/
structure ObjectMeta where
  name : String
deriving DecidableEq, Repr

/-- One element of `apisv1alpha1.APIResourceSchemaSpec.Versions`.  The
serialized schema (`runtime.RawExtension`, filled in by `SetSchema`) is the
type parameter `RawExt`. -/
structure APIResourceVersion (RawExt : Type) where
  name : String
  served : Bool
  storage : Bool
  schema : RawExt
  subresources : CustomResourceSubresources
deriving DecidableEq

/-- `apisv1alpha1.APIResourceSchemaSpec` as populated by `import.go`. -/
structure APIResourceSchemaSpec (RawExt : Type) where
  group : String
  names : CustomResourceDefinitionNames
  scope : ResourceScope
  versions : List (APIResourceVersion RawExt)
deriving DecidableEq

/-- `apisv1alpha1.APIResourceSchema` as populated by `import.go`. -/
structure APIResourceSchema (RawExt : Type) where
  objectMeta : ObjectMeta
  spec : APIResourceSchemaSpec RawExt
deriving DecidableEq

/-- The external collaborators of `createAPIResourceSchemas`, opaque to the
core pipeline.  `convert` takes an `Option ProtoSchema` because the Go map
access `modelsByGKV[gvk]` yields the zero value (nil) on a missing key, and
that value is passed to `crdpuller.Convert` unchecked; `convert` returns
the written `JSONSchemaProps` together with the error list, mirroring
`Convert(schema, &schemaProps) []error`. -/
structure PipelineEnv (Scheme Inst Ref Defn Swagger Models ProtoSchema Props RawExt Err : Type) where
  getCanonicalTypeName : Inst → String
  buildOpenAPIDefinitionsForResources :
    List Scheme → (Ref → String → Option Defn) → List String → Except Err Swagger
  setInfoVersion : Swagger → String → Swagger
  toProtoModels : Swagger → Except Err Models
  getModelsByGKV : Models → Except Err (GroupVersionKind → Option ProtoSchema)
  convert : Option ProtoSchema → Props × List Err
  newAggregate : List Err → Err
  setSchema : Props → Except Err RawExt

section Pipeline

variable {Scheme Inst Ref Defn Swagger Models ProtoSchema Props RawExt Err : Type}

/-- The merge of the getters' maps (import.go lines 95–103): an empty map,
then for each getter in order every (key, value) pair of its output is
assigned into the running result, so a later getter's entry for a key
replaces an earlier one.  A Go map is modelled as its lookup function
`String → Option Defn`. -/
def mergeDefinitionMaps (maps : List (String → Option Defn)) : String → Option Defn :=
  maps.foldl
    (fun result m => fun key =>
      match m key with
      | some v => some v
      | none => result key)
    (fun _ => none)

/-- The `GetDefinitions` callback built by `createAPIResourceSchemas`
(import.go lines 94–104): given the reference callback, merge every
getter's output map. -/
def aggregatedDefinitions (openAPIDefinitionsGetters : List (Ref → String → Option Defn))
    (ref : Ref) : String → Option Defn :=
  mergeDefinitionMaps (openAPIDefinitionsGetters.map (fun g => g ref))

/-- The `APIResourceSchema` value built for one descriptor `d` whose schema
serialized to `raw` (import.go lines 133–157): the identity name
`internal.<plural>.<group or core>`, the group/names/scope copied from the
descriptor, and a single version `v1` with `Served` and `Storage` true and
the status subresource present exactly when `HasStatus` is set. -/
def assembledSpec (d : InternalAPI Inst) (raw : RawExt) : APIResourceSchema RawExt :=
  { objectMeta :=
      { name := "internal." ++ d.names.plural ++ "." ++
          (if d.groupVersion.group = "" then "core" else d.groupVersion.group) }
    spec :=
      { group := d.groupVersion.group
        names := d.names
        scope := d.resourceSope
        versions :=
          [{ name := "v1"
             served := true
             storage := true
             schema := raw
             subresources := { status := if d.hasStatus then some () else none } }] } }

/-- One iteration of the loop of `createAPIResourceSchemas`
(import.go lines 126–162): look the descriptor's model up by
(group, version, kind), convert it, abort with the aggregated error list if
the converter reported any error, otherwise serialize the schema (which can
itself fail) and build the `APIResourceSchema`. -/
def assembleOne (env : PipelineEnv Scheme Inst Ref Defn Swagger Models ProtoSchema Props RawExt Err)
    (modelsByGKV : GroupVersionKind → Option ProtoSchema) (d : InternalAPI Inst) :
    Except Err (APIResourceSchema RawExt) :=
  let converted := env.convert (modelsByGKV (d.groupVersion.withKind d.names.kind))
  if 0 < converted.2.length then
    Except.error (env.newAggregate converted.2)
  else
    match env.setSchema converted.1 with
    | Except.error e => Except.error e
    | Except.ok raw => Except.ok (assembledSpec d raw)

/-- The loop of `createAPIResourceSchemas` over the descriptor list
(import.go lines 125–163): descriptors are processed in order, each
successful spec is appended, and the first failure aborts the whole loop
with that failure's error (the partially built list is discarded, matching
the Go `return nil, err`). -/
def assembleLoop (env : PipelineEnv Scheme Inst Ref Defn Swagger Models ProtoSchema Props RawExt Err)
    (modelsByGKV : GroupVersionKind → Option ProtoSchema) :
    List (InternalAPI Inst) → Except Err (List (APIResourceSchema RawExt))
  | [] => Except.ok []
  | d :: rest =>
    match assembleOne env modelsByGKV d with
    | Except.error e => Except.error e
    | Except.ok s =>
      match assembleLoop env modelsByGKV rest with
      | Except.error e => Except.error e
      | Except.ok ss => Except.ok (s :: ss)

/-- `createAPIResourceSchemas` (import.go lines 93–165): build the merged
definitions callback, collect the canonical type names of the descriptors'
instances, build the OpenAPI definitions document, stamp its info version
to "1.0", extract the proto models, index them by (group, version, kind),
and run the assembly loop.  Each staged collaborator failure aborts with
that error and no result list (`return nil, err`). -/
def createAPIResourceSchemas
    (env : PipelineEnv Scheme Inst Ref Defn Swagger Models ProtoSchema Props RawExt Err)
    (schemes : List Scheme) (openAPIDefinitionsGetters : List (Ref → String → Option Defn))
    (defs : List (InternalAPI Inst)) : Except Err (List (APIResourceSchema RawExt)) :=
  match env.buildOpenAPIDefinitionsForResources schemes
      (aggregatedDefinitions openAPIDefinitionsGetters)
      (defs.map (fun d => env.getCanonicalTypeName d.inst)) with
  | Except.error e => Except.error e
  | Except.ok swagger =>
    match env.toProtoModels (env.setInfoVersion swagger "1.0") with
    | Except.error e => Except.error e
    | Except.ok models =>
      match env.getModelsByGKV models with
      | Except.error e => Except.error e
      | Except.ok modelsByGKV => assembleLoop env modelsByGKV defs

/-- Modelled from the spec: `crdpuller.Convert` belongs to this repository
(`pkg/crdpuller`) but its source is not under src/; only its call site is.
Per the spec the converter, given one structural model, returns either a
JSON-schema fragment or a non-empty list of structured conversion errors,
and a descriptor whose (group, version, kind) is absent from the model
index is a reported invariant violation, never silently skipped or
converted from a zero model.  So on a present model it delegates to the
actual conversion `convertModel`, and on a missing (nil) model it reports
`missingModelErr`. -/
def specModelledConvert (convertModel : ProtoSchema → Props × List Err)
    (missingModelErr : Err) (zeroProps : Props) :
    Option ProtoSchema → Props × List Err
  | none => (zeroProps, [missingModelErr])
  | some m => convertModel m

end Pipeline

section Lemmas

variable {Scheme Inst Ref Defn Swagger Models ProtoSchema Props RawExt Err : Type}

/-- Merging one more getter map at the end: its entries win over the merge
of the earlier maps. -/
theorem mergeDefinitionMaps_append_single (ms : List (String → Option Defn))
    (f : String → Option Defn) (key : String) :
    mergeDefinitionMaps (ms ++ [f]) key =
      match f key with
      | some v => some v
      | none => mergeDefinitionMaps ms key := by
  simp [mergeDefinitionMaps, List.foldl_append]

/-- The merged table maps a key to the value of the last map in the list
defining it, regardless of what earlier maps say. -/
theorem mergeDefinitionMaps_override (l1 l2 : List (String → Option Defn))
    (f : String → Option Defn) (key : String) (v : Defn)
    (hf : f key = some v) (h2 : ∀ g ∈ l2, g key = none) :
    mergeDefinitionMaps (l1 ++ f :: l2) key = some v := by
  induction l2 using List.reverseRecOn with
  | nil =>
    have : l1 ++ f :: ([] : List (String → Option Defn)) = l1 ++ [f] := by simp
    rw [this, mergeDefinitionMaps_append_single, hf]
  | append_singleton l2' g ih =>
    have hsplit : l1 ++ f :: (l2' ++ [g]) = (l1 ++ f :: l2') ++ [g] := by simp
    rw [hsplit, mergeDefinitionMaps_append_single]
    have hg : g key = none := h2 g (by simp)
    rw [hg]
    exact ih (fun g' hg' => h2 g' (by simp [List.mem_append] at hg' ⊢; tauto))

variable (env : PipelineEnv Scheme Inst Ref Defn Swagger Models ProtoSchema Props RawExt Err)
variable (m : GroupVersionKind → Option ProtoSchema)

/-- If the converter reported at least one error for a descriptor, its
assembly step fails with the aggregated error list. -/
theorem assembleOne_error_of_convert (d : InternalAPI Inst)
    (h : (env.convert (m (d.groupVersion.withKind d.names.kind))).2 ≠ []) :
    assembleOne env m d =
      Except.error (env.newAggregate (env.convert (m (d.groupVersion.withKind d.names.kind))).2) := by
  have hlen : 0 < (env.convert (m (d.groupVersion.withKind d.names.kind))).2.length :=
    List.length_pos.mpr h
  simp [assembleOne, hlen]

/-- If conversion succeeded but serializing the schema failed, the assembly
step fails with the serialization error. -/
theorem assembleOne_error_of_setSchema (d : InternalAPI Inst) (e : Err)
    (hconv : (env.convert (m (d.groupVersion.withKind d.names.kind))).2 = [])
    (hset : env.setSchema (env.convert (m (d.groupVersion.withKind d.names.kind))).1 =
      Except.error e) :
    assembleOne env m d = Except.error e := by
  simp [assembleOne, hconv, hset]

/-- If conversion and serialization both succeed, the assembly step returns
the assembled spec. -/
theorem assembleOne_ok_of (d : InternalAPI Inst) (raw : RawExt)
    (hconv : (env.convert (m (d.groupVersion.withKind d.names.kind))).2 = [])
    (hset : env.setSchema (env.convert (m (d.groupVersion.withKind d.names.kind))).1 =
      Except.ok raw) :
    assembleOne env m d = Except.ok (assembledSpec d raw) := by
  simp [assembleOne, hconv, hset]

/-- A successful assembly step implies the converter reported no error for
that descriptor. -/
theorem assembleOne_ok_convert (d : InternalAPI Inst) (s : APIResourceSchema RawExt)
    (h : assembleOne env m d = Except.ok s) :
    (env.convert (m (d.groupVersion.withKind d.names.kind))).2 = [] := by
  by_contra hne
  rw [assembleOne_error_of_convert env m d hne] at h
  exact Except.noConfusion h

/-- A successful assembly step yields exactly the assembled spec for some
successfully serialized schema. -/
theorem assembleOne_ok_shape (d : InternalAPI Inst) (s : APIResourceSchema RawExt)
    (h : assembleOne env m d = Except.ok s) :
    ∃ raw, env.setSchema (env.convert (m (d.groupVersion.withKind d.names.kind))).1 =
        Except.ok raw ∧ s = assembledSpec d raw := by
  have hconv := assembleOne_ok_convert env m d s h
  cases hset : env.setSchema (env.convert (m (d.groupVersion.withKind d.names.kind))).1 with
  | error e =>
    rw [assembleOne_error_of_setSchema env m d e hconv hset] at h
    exact Except.noConfusion h
  | ok raw =>
    rw [assembleOne_ok_of env m d raw hconv hset] at h
    exact ⟨raw, rfl, (Except.ok.inj h).symm⟩

/-- Equation lemma: the loop on the empty descriptor list. -/
theorem assembleLoop_nil :
    assembleLoop env m ([] : List (InternalAPI Inst)) =
      (Except.ok [] : Except Err (List (APIResourceSchema RawExt))) := rfl

/-- Equation lemma: one step of the loop. -/
theorem assembleLoop_cons (d : InternalAPI Inst) (rest : List (InternalAPI Inst)) :
    assembleLoop env m (d :: rest) =
      match assembleOne env m d with
      | Except.error e => Except.error e
      | Except.ok s =>
        match assembleLoop env m rest with
        | Except.error e => Except.error e
        | Except.ok ss => Except.ok (s :: ss) := rfl

/-- Inversion for one loop step. -/
theorem assembleLoop_cons_ok (d : InternalAPI Inst) (rest : List (InternalAPI Inst))
    (l : List (APIResourceSchema RawExt)) :
    assembleLoop env m (d :: rest) = Except.ok l ↔
      ∃ s ss, assembleOne env m d = Except.ok s ∧
        assembleLoop env m rest = Except.ok ss ∧ l = s :: ss := by
  rw [assembleLoop_cons]
  cases h1 : assembleOne env m d with
  | error e => simp
  | ok s =>
    cases h2 : assembleLoop env m rest with
    | error e => simp
    | ok ss =>
      simp only [Except.ok.injEq]
      constructor
      · intro h; exact ⟨s, ss, rfl, rfl, h.symm⟩
      · rintro ⟨s', ss', rfl, rfl, rfl⟩; rfl

/-- A successful loop produces one spec per descriptor. -/
theorem assembleLoop_ok_length (defs : List (InternalAPI Inst)) :
    ∀ l : List (APIResourceSchema RawExt), assembleLoop env m defs = Except.ok l →
      l.length = defs.length := by
  induction defs with
  | nil =>
    intro l h
    rw [assembleLoop_nil] at h
    have hl : ([] : List (APIResourceSchema RawExt)) = l := Except.ok.inj h
    subst hl
    rfl
  | cons d rest ih =>
    intro l h
    rcases (assembleLoop_cons_ok env m d rest l).mp h with ⟨s, ss, _, hss, rfl⟩
    simp [ih ss hss]

/-- A successful loop assembled every descriptor, pointwise in input
order. -/
theorem assembleLoop_ok_get (defs : List (InternalAPI Inst)) :
    ∀ l : List (APIResourceSchema RawExt), assembleLoop env m defs = Except.ok l →
    ∀ (i : Nat) (hd : i < defs.length) (hl : i < l.length),
      assembleOne env m (defs.get ⟨i, hd⟩) = Except.ok (l.get ⟨i, hl⟩) := by
  induction defs with
  | nil =>
    intro l h i hd hl
    exact absurd hd (by simp)
  | cons d rest ih =>
    intro l h i hd hl
    rcases (assembleLoop_cons_ok env m d rest l).mp h with ⟨s, ss, hs, hss, rfl⟩
    cases i with
    | zero => simpa using hs
    | succ j =>
      have hd' : j < rest.length := by simpa using hd
      have hl' : j < ss.length := by simpa using hl
      simpa using ih ss hss j hd' hl'

/-- A successful loop assembled every descriptor in the list. -/
theorem assembleLoop_ok_mem (defs : List (InternalAPI Inst)) :
    ∀ l : List (APIResourceSchema RawExt), assembleLoop env m defs = Except.ok l →
    ∀ d ∈ defs, ∃ s, assembleOne env m d = Except.ok s := by
  induction defs with
  | nil =>
    intro l _ d hd
    exact absurd hd (by simp)
  | cons d0 rest ih =>
    intro l h d hd
    rcases (assembleLoop_cons_ok env m d0 rest l).mp h with ⟨s, ss, hs, hss, rfl⟩
    rcases List.mem_cons.mp hd with rfl | hmem
    · exact ⟨s, hs⟩
    · exact ih ss hss d hmem

/-- If every descriptor before `d` assembles successfully and `d` fails,
the whole loop fails with exactly `d`'s error. -/
theorem assembleLoop_first_error (pre post : List (InternalAPI Inst))
    (d : InternalAPI Inst) (e : Err)
    (hpre : ∀ d' ∈ pre, ∃ s, assembleOne env m d' = Except.ok s)
    (hd : assembleOne env m d = Except.error e) :
    assembleLoop env m (pre ++ d :: post) = Except.error e := by
  induction pre with
  | nil =>
    show assembleLoop env m (d :: post) = Except.error e
    rw [assembleLoop_cons, hd]
  | cons p pre' ih =>
    rcases hpre p (by simp) with ⟨s, hs⟩
    have hrest := ih (fun d' hd' => hpre d' (by simp [hd']))
    show assembleLoop env m (p :: (pre' ++ d :: post)) = Except.error e
    rw [assembleLoop_cons, hs, hrest]


/-- When the three staged collaborator calls succeed, the pipeline is
exactly the assembly loop over the extracted model index. -/
theorem createAPIResourceSchemas_eq_loop (schemes : List Scheme)
    (getters : List (Ref → String → Option Defn)) (defs : List (InternalAPI Inst))
    (swagger : Swagger) (models : Models) (index : GroupVersionKind → Option ProtoSchema)
    (hb : env.buildOpenAPIDefinitionsForResources schemes (aggregatedDefinitions getters)
      (defs.map (fun d => env.getCanonicalTypeName d.inst)) = Except.ok swagger)
    (hm : env.toProtoModels (env.setInfoVersion swagger "1.0") = Except.ok models)
    (hi : env.getModelsByGKV models = Except.ok index) :
    createAPIResourceSchemas env schemes getters defs = assembleLoop env index defs := by
  unfold createAPIResourceSchemas
  rw [hb]
  show (match env.toProtoModels (env.setInfoVersion swagger "1.0") with
    | Except.error e => Except.error e
    | Except.ok models =>
      match env.getModelsByGKV models with
      | Except.error e => Except.error e
      | Except.ok modelsByGKV => assembleLoop env modelsByGKV defs) = assembleLoop env index defs
  rw [hm]
  show (match env.getModelsByGKV models with
    | Except.error e => Except.error e
    | Except.ok modelsByGKV => assembleLoop env modelsByGKV defs) = assembleLoop env index defs
  rw [hi]

/-- A successful pipeline run means every staged collaborator call
succeeded and the assembly loop succeeded on the extracted index. -/
theorem createAPIResourceSchemas_ok_inv (schemes : List Scheme)
    (getters : List (Ref → String → Option Defn)) (defs : List (InternalAPI Inst))
    (l : List (APIResourceSchema RawExt))
    (h : createAPIResourceSchemas env schemes getters defs = Except.ok l) :
    ∃ swagger models index,
      env.buildOpenAPIDefinitionsForResources schemes (aggregatedDefinitions getters)
        (defs.map (fun d => env.getCanonicalTypeName d.inst)) = Except.ok swagger ∧
      env.toProtoModels (env.setInfoVersion swagger "1.0") = Except.ok models ∧
      env.getModelsByGKV models = Except.ok index ∧
      assembleLoop env index defs = Except.ok l := by
  unfold createAPIResourceSchemas at h
  split at h
  · exact Except.noConfusion h
  · rename_i swagger hb
    split at h
    · exact Except.noConfusion h
    · rename_i models hm
      split at h
      · exact Except.noConfusion h
      · rename_i index hi
        exact ⟨swagger, models, index, hb, hm, hi, h⟩

end Lemmas

section Claims

variable {Scheme Inst Ref Defn Swagger Models ProtoSchema Props RawExt Err : Type}

/-- C1: for every input descriptor, the identity (object name) of the
produced SchemaSpec is `"internal." + plural + "." + group`, with the
literal `"core"` substituted for an empty group. -/
theorem identity_naming
    (env : PipelineEnv Scheme Inst Ref Defn Swagger Models ProtoSchema Props RawExt Err)
    (schemes : List Scheme) (getters : List (Ref → String → Option Defn))
    (defs : List (InternalAPI Inst)) (l : List (APIResourceSchema RawExt))
    (h : createAPIResourceSchemas env schemes getters defs = Except.ok l)
    (i : Nat) (hd : i < defs.length) (hl : i < l.length) :
    (l.get ⟨i, hl⟩).objectMeta.name =
      "internal." ++ (defs.get ⟨i, hd⟩).names.plural ++ "." ++
        (if (defs.get ⟨i, hd⟩).groupVersion.group = "" then "core"
         else (defs.get ⟨i, hd⟩).groupVersion.group) := by
  rcases createAPIResourceSchemas_ok_inv env schemes getters defs l h with
    ⟨swagger, models, index, _, _, _, hloop⟩
  have hone := assembleLoop_ok_get env index defs l hloop i hd hl
  rcases assembleOne_ok_shape env index (defs.get ⟨i, hd⟩) (l.get ⟨i, hl⟩) hone with
    ⟨raw, _, hshape⟩
  rw [hshape]
  rfl

/-- C2: a requested descriptor whose (group, version, kind) is absent from
the successfully built model index makes the pipeline fail with a reported
error (no result list); it is never silently skipped or converted from a
default model.  The converter behaviour on a missing model is
`specModelledConvert`, modelled from the spec because `crdpuller.Convert`
is repository code not under src/. -/
theorem missing_model_reported
    (env : PipelineEnv Scheme Inst Ref Defn Swagger Models ProtoSchema Props RawExt Err)
    (convertModel : ProtoSchema → Props × List Err) (missingModelErr : Err) (zeroProps : Props)
    (hconv : env.convert = specModelledConvert convertModel missingModelErr zeroProps)
    (schemes : List Scheme) (getters : List (Ref → String → Option Defn))
    (defs : List (InternalAPI Inst))
    (swagger : Swagger) (models : Models) (index : GroupVersionKind → Option ProtoSchema)
    (hb : env.buildOpenAPIDefinitionsForResources schemes (aggregatedDefinitions getters)
      (defs.map (fun d => env.getCanonicalTypeName d.inst)) = Except.ok swagger)
    (hm : env.toProtoModels (env.setInfoVersion swagger "1.0") = Except.ok models)
    (hi : env.getModelsByGKV models = Except.ok index)
    (d : InternalAPI Inst) (hd : d ∈ defs)
    (hmiss : index (d.groupVersion.withKind d.names.kind) = none) :
    ∃ e, createAPIResourceSchemas env schemes getters defs = Except.error e := by
  rw [createAPIResourceSchemas_eq_loop env schemes getters defs swagger models index hb hm hi]
  cases hres : assembleLoop env index defs with
  | error e => exact ⟨e, rfl⟩
  | ok l =>
    exfalso
    rcases assembleLoop_ok_mem env index defs l hres d hd with ⟨s, hs⟩
    have hnil := assembleOne_ok_convert env index d s hs
    rw [hconv, hmiss] at hnil
    simp [specModelledConvert] at hnil

/-- C3: when every descriptor before `d` assembles successfully and `d`'s
model conversion reports a non-empty error list, the whole run returns
exactly the aggregate of `d`'s errors and no spec list at all (the earlier
successful specs are discarded, and no later descriptor contributes). -/
theorem conversion_error_short_circuits
    (env : PipelineEnv Scheme Inst Ref Defn Swagger Models ProtoSchema Props RawExt Err)
    (schemes : List Scheme) (getters : List (Ref → String → Option Defn))
    (pre post : List (InternalAPI Inst)) (d : InternalAPI Inst)
    (swagger : Swagger) (models : Models) (index : GroupVersionKind → Option ProtoSchema)
    (hb : env.buildOpenAPIDefinitionsForResources schemes (aggregatedDefinitions getters)
      ((pre ++ d :: post).map (fun d => env.getCanonicalTypeName d.inst)) = Except.ok swagger)
    (hm : env.toProtoModels (env.setInfoVersion swagger "1.0") = Except.ok models)
    (hi : env.getModelsByGKV models = Except.ok index)
    (hpre : ∀ d' ∈ pre, ∃ s, assembleOne env index d' = Except.ok s)
    (herr : (env.convert (index (d.groupVersion.withKind d.names.kind))).2 ≠ []) :
    createAPIResourceSchemas env schemes getters (pre ++ d :: post) =
      Except.error
        (env.newAggregate (env.convert (index (d.groupVersion.withKind d.names.kind))).2) := by
  rw [createAPIResourceSchemas_eq_loop env schemes getters (pre ++ d :: post)
    swagger models index hb hm hi]
  exact assembleLoop_first_error env index pre post d _ hpre
    (assembleOne_error_of_convert env index d herr)

/-- C4: the pipeline never returns a partial result: if it returns a spec
list at all, then every staged collaborator call succeeded and every
descriptor's conversion and assembly succeeded, and the list has one entry
per descriptor (any failure yields `Except.error` carrying no list). -/
theorem no_partial_result
    (env : PipelineEnv Scheme Inst Ref Defn Swagger Models ProtoSchema Props RawExt Err)
    (schemes : List Scheme) (getters : List (Ref → String → Option Defn))
    (defs : List (InternalAPI Inst)) (l : List (APIResourceSchema RawExt))
    (h : createAPIResourceSchemas env schemes getters defs = Except.ok l) :
    l.length = defs.length ∧
    ∃ swagger models index,
      env.buildOpenAPIDefinitionsForResources schemes (aggregatedDefinitions getters)
        (defs.map (fun d => env.getCanonicalTypeName d.inst)) = Except.ok swagger ∧
      env.toProtoModels (env.setInfoVersion swagger "1.0") = Except.ok models ∧
      env.getModelsByGKV models = Except.ok index ∧
      ∀ d ∈ defs,
        (env.convert (index (d.groupVersion.withKind d.names.kind))).2 = [] ∧
        ∃ s, assembleOne env index d = Except.ok s := by
  rcases createAPIResourceSchemas_ok_inv env schemes getters defs l h with
    ⟨swagger, models, index, hb, hm, hi, hloop⟩
  refine ⟨assembleLoop_ok_length env index defs l hloop, swagger, models, index, hb, hm, hi, ?_⟩
  intro d hd
  rcases assembleLoop_ok_mem env index defs l hloop d hd with ⟨s, hs⟩
  exact ⟨assembleOne_ok_convert env index d s hs, s, hs⟩

/-- C5: every produced SchemaSpec carries exactly one version entry, and
that entry is named "v1" with served and storage both true. -/
theorem single_v1_version
    (env : PipelineEnv Scheme Inst Ref Defn Swagger Models ProtoSchema Props RawExt Err)
    (schemes : List Scheme) (getters : List (Ref → String → Option Defn))
    (defs : List (InternalAPI Inst)) (l : List (APIResourceSchema RawExt))
    (h : createAPIResourceSchemas env schemes getters defs = Except.ok l)
    (i : Nat) (hl : i < l.length) :
    ∃ v, (l.get ⟨i, hl⟩).spec.versions = [v] ∧
      v.name = "v1" ∧ v.served = true ∧ v.storage = true := by
  rcases createAPIResourceSchemas_ok_inv env schemes getters defs l h with
    ⟨swagger, models, index, _, _, _, hloop⟩
  have hd : i < defs.length := by
    rw [← assembleLoop_ok_length env index defs l hloop]
    exact hl
  have hone := assembleLoop_ok_get env index defs l hloop i hd hl
  rcases assembleOne_ok_shape env index (defs.get ⟨i, hd⟩) (l.get ⟨i, hl⟩) hone with
    ⟨raw, _, hshape⟩
  rw [hshape]
  exact ⟨_, rfl, rfl, rfl, rfl⟩

/-- C6: the single version entry of a produced SchemaSpec carries a non-nil
status subresource marker exactly when the descriptor's `hasStatus` flag is
set. -/
theorem status_wiring
    (env : PipelineEnv Scheme Inst Ref Defn Swagger Models ProtoSchema Props RawExt Err)
    (schemes : List Scheme) (getters : List (Ref → String → Option Defn))
    (defs : List (InternalAPI Inst)) (l : List (APIResourceSchema RawExt))
    (h : createAPIResourceSchemas env schemes getters defs = Except.ok l)
    (i : Nat) (hd : i < defs.length) (hl : i < l.length) :
    ∃ v, (l.get ⟨i, hl⟩).spec.versions = [v] ∧
      v.subresources.status.isSome = (defs.get ⟨i, hd⟩).hasStatus := by
  rcases createAPIResourceSchemas_ok_inv env schemes getters defs l h with
    ⟨swagger, models, index, _, _, _, hloop⟩
  have hone := assembleLoop_ok_get env index defs l hloop i hd hl
  rcases assembleOne_ok_shape env index (defs.get ⟨i, hd⟩) (l.get ⟨i, hl⟩) hone with
    ⟨raw, _, hshape⟩
  rw [hshape]
  refine ⟨_, rfl, ?_⟩
  cases hst : (defs.get ⟨i, hd⟩).hasStatus <;> simp [assembledSpec, hst]

/-- C7: in the aggregated definition table, a canonical name defined by a
provider and by no later provider maps to that provider's entry — so on a
collision the latest registered provider wins, a name defined by a single
provider is present with that provider's entry, and the merge is total (no
error is possible). -/
theorem later_provider_wins
    (before after : List (Ref → String → Option Defn))
    (g : Ref → String → Option Defn) (ref : Ref) (key : String) (v : Defn)
    (hg : g ref key = some v)
    (hafter : ∀ g' ∈ after, g' ref key = none) :
    aggregatedDefinitions (before ++ g :: after) ref key = some v := by
  unfold aggregatedDefinitions
  rw [List.map_append, List.map_cons]
  refine mergeDefinitionMaps_override (before.map (fun g' => g' ref))
    (after.map (fun g' => g' ref)) (g ref) key v hg ?_
  intro f hf
  rcases List.mem_map.mp hf with ⟨g', hg', rfl⟩
  exact hafter g' hg'

/-- C8: the pipeline is deterministic — two invocations on equal schemes,
equal getters, equal descriptor lists and an equal (hence deterministic)
collaborator environment return equal results. -/
theorem pipeline_deterministic
    (env env' : PipelineEnv Scheme Inst Ref Defn Swagger Models ProtoSchema Props RawExt Err)
    (schemes schemes' : List Scheme)
    (getters getters' : List (Ref → String → Option Defn))
    (defs defs' : List (InternalAPI Inst))
    (henv : env = env') (hschemes : schemes = schemes')
    (hgetters : getters = getters') (hdefs : defs = defs') :
    createAPIResourceSchemas env schemes getters defs =
      createAPIResourceSchemas env' schemes' getters' defs' := by
  subst henv
  subst hschemes
  subst hgetters
  subst hdefs
  rfl

/-- C9: a successful run returns exactly one SchemaSpec per input
descriptor, in input order (the i-th spec is the assembly of the i-th
descriptor), and duplicate descriptors yield equal specs. -/
theorem one_spec_per_descriptor
    (env : PipelineEnv Scheme Inst Ref Defn Swagger Models ProtoSchema Props RawExt Err)
    (schemes : List Scheme) (getters : List (Ref → String → Option Defn))
    (defs : List (InternalAPI Inst)) (l : List (APIResourceSchema RawExt))
    (h : createAPIResourceSchemas env schemes getters defs = Except.ok l) :
    l.length = defs.length ∧
    (∃ swagger models index,
      env.buildOpenAPIDefinitionsForResources schemes (aggregatedDefinitions getters)
        (defs.map (fun d => env.getCanonicalTypeName d.inst)) = Except.ok swagger ∧
      env.toProtoModels (env.setInfoVersion swagger "1.0") = Except.ok models ∧
      env.getModelsByGKV models = Except.ok index ∧
      ∀ (i : Nat) (hd : i < defs.length) (hl : i < l.length),
        assembleOne env index (defs.get ⟨i, hd⟩) = Except.ok (l.get ⟨i, hl⟩)) ∧
    ∀ (i j : Nat) (hdi : i < defs.length) (hdj : j < defs.length)
      (hli : i < l.length) (hlj : j < l.length),
      defs.get ⟨i, hdi⟩ = defs.get ⟨j, hdj⟩ → l.get ⟨i, hli⟩ = l.get ⟨j, hlj⟩ := by
  rcases createAPIResourceSchemas_ok_inv env schemes getters defs l h with
    ⟨swagger, models, index, hb, hm, hi, hloop⟩
  refine ⟨assembleLoop_ok_length env index defs l hloop,
    ⟨swagger, models, index, hb, hm, hi,
      fun i hd hl => assembleLoop_ok_get env index defs l hloop i hd hl⟩, ?_⟩
  intro i j hdi hdj hli hlj heq
  have hi' := assembleLoop_ok_get env index defs l hloop i hdi hli
  have hj' := assembleLoop_ok_get env index defs l hloop j hdj hlj
  rw [heq, hj'] at hi'
  exact (Except.ok.inj hi').symm

/-- C10: beyond conversion errors, serializing the converted schema into
the "v1" version entry (`SetSchema`) is itself fallible; when it fails for
a descriptor (every earlier descriptor having assembled successfully), the
whole run aborts with that error and returns no spec list. -/
theorem setSchema_failure_aborts
    (env : PipelineEnv Scheme Inst Ref Defn Swagger Models ProtoSchema Props RawExt Err)
    (schemes : List Scheme) (getters : List (Ref → String → Option Defn))
    (pre post : List (InternalAPI Inst)) (d : InternalAPI Inst) (e : Err)
    (swagger : Swagger) (models : Models) (index : GroupVersionKind → Option ProtoSchema)
    (hb : env.buildOpenAPIDefinitionsForResources schemes (aggregatedDefinitions getters)
      ((pre ++ d :: post).map (fun d => env.getCanonicalTypeName d.inst)) = Except.ok swagger)
    (hm : env.toProtoModels (env.setInfoVersion swagger "1.0") = Except.ok models)
    (hi : env.getModelsByGKV models = Except.ok index)
    (hpre : ∀ d' ∈ pre, ∃ s, assembleOne env index d' = Except.ok s)
    (hconv : (env.convert (index (d.groupVersion.withKind d.names.kind))).2 = [])
    (hset : env.setSchema (env.convert (index (d.groupVersion.withKind d.names.kind))).1 =
      Except.error e) :
    createAPIResourceSchemas env schemes getters (pre ++ d :: post) = Except.error e := by
  rw [createAPIResourceSchemas_eq_loop env schemes getters (pre ++ d :: post)
    swagger models index hb hm hi]
  exact assembleLoop_first_error env index pre post d e hpre
    (assembleOne_error_of_setSchema env index d e hconv hset)

end Claims

section Witnesses

/-- A concrete, everywhere-successful collaborator environment: instances
are their own canonical names, the index maps every (group, version, kind)
to model 0, conversion passes the model through as the props value with no
errors, and serialization always succeeds. -/
def envOk : PipelineEnv Unit String Unit Nat Unit Unit Nat Nat Unit Nat :=
  { getCanonicalTypeName := fun s => s
    buildOpenAPIDefinitionsForResources := fun _ _ _ => Except.ok ()
    setInfoVersion := fun sw _ => sw
    toProtoModels := fun _ => Except.ok ()
    getModelsByGKV := fun _ => Except.ok (fun _ => some 0)
    convert := fun om => (om.getD 0, [])
    newAggregate := fun errs => 100 + errs.length
    setSchema := fun _ => Except.ok () }

/-- Like `envOk`, but the kind "Bad" is indexed to model 1 and converting
model 1 reports the single error 5. -/
def envConvertFails : PipelineEnv Unit String Unit Nat Unit Unit Nat Nat Unit Nat :=
  { envOk with
    getModelsByGKV := fun _ =>
      Except.ok (fun gvk => if gvk.kind = "Bad" then some 1 else some 0)
    convert := fun om => if om = some 1 then (1, [5]) else (om.getD 0, []) }

/-- Like `envOk`, but the kind "Bad" has no model at all and the converter
is the spec-modelled one reporting error 7 on a missing model. -/
def envMissingModel : PipelineEnv Unit String Unit Nat Unit Unit Nat Nat Unit Nat :=
  { envOk with
    getModelsByGKV := fun _ =>
      Except.ok (fun gvk => if gvk.kind = "Bad" then none else some 0)
    convert := specModelledConvert (fun mdl => (mdl, [])) 7 0 }

/-- Like `envOk`, but the kind "Bad" is indexed to model 1 and serializing
props 1 fails with error 9. -/
def envSetSchemaFails : PipelineEnv Unit String Unit Nat Unit Unit Nat Nat Unit Nat :=
  { envOk with
    getModelsByGKV := fun _ =>
      Except.ok (fun gvk => if gvk.kind = "Bad" then some 1 else some 0)
    setSchema := fun p => if p = 1 then Except.error 9 else Except.ok () }

/-- A descriptor in the empty (core) group with a status subresource. -/
def widgetsCore : InternalAPI String :=
  { names := { plural := "widgets", singular := "widget", kind := "Widget" }
    groupVersion := { group := "", version := "v1" }
    inst := "Widget"
    resourceSope := ResourceScope.clusterScoped
    hasStatus := true }

/-- A descriptor in the group "example.io" without a status subresource. -/
def widgetsExample : InternalAPI String :=
  { names := { plural := "widgets", singular := "widget", kind := "Widget" }
    groupVersion := { group := "example.io", version := "v1" }
    inst := "Widget"
    resourceSope := ResourceScope.namespaceScoped
    hasStatus := false }

/-- A descriptor of kind "Bad", the failing one in the failing
environments. -/
def badWidget : InternalAPI String :=
  { names := { plural := "bads", singular := "bad", kind := "Bad" }
    groupVersion := { group := "", version := "v1" }
    inst := "Bad"
    resourceSope := ResourceScope.namespaceScoped
    hasStatus := false }

/-- The spec the pipeline assembles for `widgetsCore` under `envOk`. -/
def widgetsCoreSpec : APIResourceSchema Unit :=
  { objectMeta := { name := "internal.widgets.core" }
    spec :=
      { group := ""
        names := { plural := "widgets", singular := "widget", kind := "Widget" }
        scope := ResourceScope.clusterScoped
        versions :=
          [{ name := "v1"
             served := true
             storage := true
             schema := ()
             subresources := { status := some () } }] } }

/-- The spec the pipeline assembles for `widgetsExample` under `envOk`. -/
def widgetsExampleSpec : APIResourceSchema Unit :=
  { objectMeta := { name := "internal.widgets.example.io" }
    spec :=
      { group := "example.io"
        names := { plural := "widgets", singular := "widget", kind := "Widget" }
        scope := ResourceScope.namespaceScoped
        versions :=
          [{ name := "v1"
             served := true
             storage := true
             schema := ()
             subresources := { status := none } }] } }

/-- Witness for C1: a run on the two widgets descriptors yields the names
"internal.widgets.core" and "internal.widgets.example.io". -/
theorem identity_naming_witness :
    widgetsCoreSpec.objectMeta.name = "internal.widgets.core" ∧
    widgetsExampleSpec.objectMeta.name = "internal.widgets.example.io" := by
  have h : createAPIResourceSchemas envOk [] [] [widgetsCore, widgetsExample] =
      Except.ok [widgetsCoreSpec, widgetsExampleSpec] := rfl
  exact ⟨(identity_naming envOk [] [] [widgetsCore, widgetsExample]
      [widgetsCoreSpec, widgetsExampleSpec] h 0 (by decide) (by decide)).trans (by decide),
    (identity_naming envOk [] [] [widgetsCore, widgetsExample]
      [widgetsCoreSpec, widgetsExampleSpec] h 1 (by decide) (by decide)).trans (by decide)⟩

/-- Witness for C2: under `envMissingModel` the descriptor of kind "Bad"
has no model and the run fails. -/
theorem missing_model_reported_witness :
    ∃ e, createAPIResourceSchemas envMissingModel [] [] [widgetsCore, badWidget] =
      Except.error e :=
  missing_model_reported envMissingModel (fun mdl => (mdl, [])) 7 0 rfl
    [] [] [widgetsCore, badWidget] () ()
    (fun gvk => if gvk.kind = "Bad" then none else some 0)
    rfl rfl rfl badWidget (by simp) (by decide)

/-- Witness for C3: with descriptors [good, bad, good], conversion of the
second reports error 5, and the run returns exactly the aggregate of [5]
(here 101) with no spec list. -/
theorem conversion_error_short_circuits_witness :
    createAPIResourceSchemas envConvertFails [] [] [widgetsCore, badWidget, widgetsCore] =
      Except.error 101 := by
  have h := conversion_error_short_circuits envConvertFails [] []
    [widgetsCore] [widgetsCore] badWidget () ()
    (fun gvk => if gvk.kind = "Bad" then some 1 else some 0)
    rfl rfl rfl
    (fun d' hd' => by
      rcases List.mem_singleton.mp hd' with rfl
      exact ⟨assembledSpec widgetsCore (), rfl⟩)
    (by decide)
  exact h

/-- Witness for C4: a successful run on the two widgets descriptors has
one output per input. -/
theorem no_partial_result_witness :
    ([widgetsCoreSpec, widgetsExampleSpec] : List (APIResourceSchema Unit)).length =
      ([widgetsCore, widgetsExample] : List (InternalAPI String)).length :=
  (no_partial_result envOk [] [] [widgetsCore, widgetsExample]
    [widgetsCoreSpec, widgetsExampleSpec] rfl).1

/-- Witness for C5: the spec produced for `widgetsCore` has the single
version "v1" with served and storage true. -/
theorem single_v1_version_witness :
    ∃ v, widgetsCoreSpec.spec.versions = [v] ∧
      v.name = "v1" ∧ v.served = true ∧ v.storage = true :=
  single_v1_version envOk [] [] [widgetsCore, widgetsExample]
    [widgetsCoreSpec, widgetsExampleSpec] rfl 0 (by decide)

/-- Witness for C6: `widgetsCore` (hasStatus true) gets a status marker and
`widgetsExample` (hasStatus false) gets none. -/
theorem status_wiring_witness :
    (∃ v, widgetsCoreSpec.spec.versions = [v] ∧
      v.subresources.status.isSome = widgetsCore.hasStatus) ∧
    (∃ v, widgetsExampleSpec.spec.versions = [v] ∧
      v.subresources.status.isSome = widgetsExample.hasStatus) :=
  ⟨status_wiring envOk [] [] [widgetsCore, widgetsExample]
      [widgetsCoreSpec, widgetsExampleSpec] rfl 0 (by decide) (by decide),
    status_wiring envOk [] [] [widgetsCore, widgetsExample]
      [widgetsCoreSpec, widgetsExampleSpec] rfl 1 (by decide) (by decide)⟩

/-- A first definitions getter: maps "Widget" to definition 1. -/
def getterA : Unit → String → Option Nat :=
  fun _ key => if key = "Widget" then some 1 else none

/-- A second definitions getter: maps "Widget" to definition 2. -/
def getterB : Unit → String → Option Nat :=
  fun _ key => if key = "Widget" then some 2 else none

/-- Witness for C7: both getters define "Widget"; the later one (getterB)
wins in the aggregated table. -/
theorem later_provider_wins_witness :
    aggregatedDefinitions [getterA, getterB] () "Widget" = some 2 :=
  later_provider_wins [getterA] [] getterB () "Widget" 2 (by decide)
    (fun g' hg' => absurd hg' (List.not_mem_nil g'))

/-- Witness for C8: two identical runs return the same result. -/
theorem pipeline_deterministic_witness :
    createAPIResourceSchemas envOk [] [] [widgetsCore, widgetsExample] =
      createAPIResourceSchemas envOk [] [] [widgetsCore, widgetsExample] :=
  pipeline_deterministic envOk envOk [] [] [] [] [widgetsCore, widgetsExample]
    [widgetsCore, widgetsExample] rfl rfl rfl rfl

/-- Witness for C9: a run on a duplicated descriptor yields equal specs at
both positions, one per input. -/
theorem one_spec_per_descriptor_witness :
    ([widgetsCoreSpec, widgetsCoreSpec] : List (APIResourceSchema Unit)).length =
      ([widgetsCore, widgetsCore] : List (InternalAPI String)).length ∧
    List.get [widgetsCoreSpec, widgetsCoreSpec] ⟨0, by decide⟩ =
      List.get [widgetsCoreSpec, widgetsCoreSpec] ⟨1, by decide⟩ := by
  have hh := one_spec_per_descriptor envOk [] [] [widgetsCore, widgetsCore]
    [widgetsCoreSpec, widgetsCoreSpec] rfl
  exact ⟨hh.1, hh.2.2 0 1 (by decide) (by decide) (by decide) (by decide) rfl⟩

/-- Witness for C10: with descriptors [good, bad], serialization of the
second fails with error 9 and the run returns exactly that error and no
spec list. -/
theorem setSchema_failure_aborts_witness :
    createAPIResourceSchemas envSetSchemaFails [] [] [widgetsCore, badWidget] =
      Except.error 9 :=
  setSchema_failure_aborts envSetSchemaFails [] [] [widgetsCore] [] badWidget 9 () ()
    (fun gvk => if gvk.kind = "Bad" then some 1 else some 0)
    rfl rfl rfl
    (fun d' hd' => by
      rcases List.mem_singleton.mp hd' with rfl
      exact ⟨assembledSpec widgetsCore (), rfl⟩)
    (by decide) rfl

end Witnesses

end InternalAPIs
